import Mathlib

/-!
Shallow embedding of the fridge-manage-server persistence layer
(src/lib.rs, src/foods.rs, src/users.rs, src/util.rs).

The compiled crate consists of the modules declared in src/lib.rs
(`foods`, `users`, `util`); the files src/foods/repo.rs and
src/users/repo.rs are earlier drafts that no `mod repo;` declaration
reaches, so src/foods.rs and src/users.rs are the authoritative
repository implementations embedded here.

Value objects (FoodId, FoodName, UserId, UserName, Mail, Password) are
single-field string wrappers with structural equality and no behaviour;
they are embedded as plain `String` fields carrying the source field
names.  `chrono::NaiveDate` (a plain calendar date) is embedded as a
year/month/day record.

The MySQL store behind `sqlx` is embedded as a list of rows per table,
with the semantics of the exact statements the code issues:
  - `INSERT` appends a row, failing (duplicate-key execution error)
    when a row with the same primary key already exists;
  - `SELECT ... WHERE <pk> = ?` with `fetch_one` returns the first
    matching row and fails with `RowNotFound` when none matches;
  - `SELECT ... WHERE user_id = ?` with `fetch_all` returns all
    matching rows in table order;
  - `UPDATE`/`DELETE` run through `execute`, which succeeds even when
    zero rows are affected (sqlx's `execute` reports `rows_affected`
    but never turns an empty match into an error, and the code never
    inspects `rows_affected`).
Each repository method maps any driver error to the single domain
variant `NotFound`, exactly as the `map_err(|_e| ...)` calls do.
-/

namespace FridgeManage

/-- Embedding of `chrono::NaiveDate`: a plain calendar date with no
time component, as stored in the `exp` column. -/
structure NaiveDate where
  year : Int
  month : Nat
  day : Nat
deriving DecidableEq, Repr

/-- Embedding of `Food` (src/foods.rs): `food_id`, `food_name`, `exp`,
`user_id`, with the newtype wrappers flattened to their underlying
primitives. -/
structure Food where
  food_id : String
  food_name : String
  exp : NaiveDate
  user_id : String
deriving DecidableEq, Repr

/-- Embedding of `CreateFoodPayload` (src/foods.rs). -/
structure CreateFoodPayload where
  food_name : String
  exp : NaiveDate
deriving DecidableEq, Repr

/-- Embedding of `AllFoods` (src/foods.rs): the collection returned by
`read_all`. -/
structure AllFoods where
  foods : List Food
deriving DecidableEq, Repr

/-- Embedding of `User` (src/users.rs). -/
structure User where
  user_id : String
  user_name : String
  mail : String
  password : String
deriving DecidableEq, Repr

/-- Embedding of `CreateUserPayload` (src/users.rs). -/
structure CreateUserPayload where
  user_name : String
  mail : String
  password : String
deriving DecidableEq, Repr

/-- Embedding of `PubUserInfo` (src/users.rs): the redacted projection
of `User`, holding only `user_id` and `user_name`. -/
structure PubUserInfo where
  user_id : String
  user_name : String
deriving DecidableEq, Repr

/-- Embedding of `FoodsError` (src/foods.rs): the single variant
`NotFound`. -/
inductive FoodsError where
  | NotFound
deriving DecidableEq, Repr

/-- Embedding of `UserError` (src/users.rs): the single variant
`NotFound`. -/
inductive UserError where
  | NotFound
deriving DecidableEq, Repr

/-- Embedding of `HashError` (src/util.rs). -/
inductive HashError where
  | Salt
  | Hash
deriving DecidableEq, Repr

/-- The `food_table`: one row per `Food`, in insertion order. -/
abbrev FoodTable := List Food

/-- The `user_table`: one row per `User`, in insertion order. -/
abbrev UserTable := List User

/-- Embedding of `Food::new` (src/foods.rs): builds a `Food` from a
create payload and the acting user's `PubUserInfo`.  The freshly
generated UUID (`Uuid::new_v4().to_string()`) is passed in explicitly
as `genId` to make the nondeterminism a parameter. -/
def Food.new (genId : String) (payload : CreateFoodPayload) (user : PubUserInfo) : Food :=
  { food_id := genId
    food_name := payload.food_name
    exp := payload.exp
    user_id := user.user_id }

/-- Embedding of `User::new` (src/users.rs): builds a `User` from a
create payload and an injected hashing capability (`Box<dyn HashFunc>`,
embedded as a function `String → Except HashError String`).  The
generated UUID is passed in explicitly as `genId`.  The hasher is
applied to the payload's plaintext password; its error is propagated
via `?` and its output becomes the stored `password` field. -/
def User.new (genId : String) (payload : CreateUserPayload)
    (hasher : String → Except HashError String) : Except HashError User :=
  match hasher payload.password with
  | .error e => .error e
  | .ok hashed =>
      .ok { user_id := genId
            user_name := payload.user_name
            mail := payload.mail
            password := hashed }

namespace FoodsRepository

/-- Embedding of `FoodsRepository::execute_insert_query`
(src/foods.rs:91-107): `INSERT INTO food_table (food_id, food_name,
exp, user_id) VALUES (?, ?, ?, ?)`.  A duplicate primary key is a
driver execution error, mapped to `NotFound`; otherwise the row is
appended. -/
def execute_insert_query (t : FoodTable) (payload : Food) :
    Except FoodsError FoodTable :=
  if t.any (fun r => r.food_id == payload.food_id) then
    .error .NotFound
  else
    .ok (t ++ [payload])

/-- Embedding of `FoodsRepository::execute_query` (src/foods.rs:109-121):
`SELECT ... FROM food_table WHERE food_id = ?` with `fetch_one`; the
first matching row, or `NotFound` when none matches. -/
def execute_query (t : FoodTable) (id : String) : Except FoodsError Food :=
  match t.find? (fun r => r.food_id == id) with
  | some f => .ok f
  | none => .error .NotFound

/-- Embedding of `FoodsRepository::execute_query_all`
(src/foods.rs:123-135): `SELECT ... FROM food_table WHERE user_id = ?`
with `fetch_all`; every matching row in table order.  (In the source
the parameter is typed `&FoodId` but bound against the `user_id`
column; both wrappers hold a string.) -/
def execute_query_all (t : FoodTable) (user_id : String) :
    Except FoodsError (List Food) :=
  .ok (t.filter (fun r => r.user_id == user_id))

/-- Embedding of `FoodsRepository::execute_update_query`
(src/foods.rs:137-153): `UPDATE food_table SET food_name = ?, exp = ?
WHERE food_id = ?`, keyed by `payload.food_id`.  Only the `food_name`
and `exp` columns are set; `execute` succeeds even when zero rows
match. -/
def execute_update_query (t : FoodTable) (payload : Food) :
    Except FoodsError FoodTable :=
  .ok (t.map (fun r =>
    if r.food_id == payload.food_id then
      { r with food_name := payload.food_name, exp := payload.exp }
    else r))

/-- Embedding of `FoodsRepository::execute_delete_query`
(src/foods.rs:155-167): `DELETE FROM food_table WHERE food_id = ?`;
`execute` succeeds even when zero rows match. -/
def execute_delete_query (t : FoodTable) (id : String) :
    Except FoodsError FoodTable :=
  .ok (t.filter (fun r => !(r.food_id == id)))

/-- Embedding of `RepositoryTargetReader::read` for `FoodsRepository`
(src/foods.rs:199-207). -/
def read (t : FoodTable) (id : String) : Except FoodsError Food :=
  execute_query t id

/-- Embedding of `RepositoryWriter::insert` for `FoodsRepository`
(src/foods.rs:181-185): run the insert, then a follow-up `read` keyed
by `payload.food_id`; the read-back row together with the new table
state is the result. -/
def insert (t : FoodTable) (payload : Food) :
    Except FoodsError (FoodTable × Food) :=
  match execute_insert_query t payload with
  | .error e => .error e
  | .ok t1 =>
      match read t1 payload.food_id with
      | .error e => .error e
      | .ok query_res => .ok (t1, query_res)

/-- Embedding of `RepositoryWriter::update` for `FoodsRepository`
(src/foods.rs:187-191): the `_id` parameter is ignored by the source
(bound as `_id`); the update and the follow-up read are both keyed by
`payload.food_id`. -/
def update (t : FoodTable) (_id : String) (payload : Food) :
    Except FoodsError (FoodTable × Food) :=
  match execute_update_query t payload with
  | .error e => .error e
  | .ok t1 =>
      match read t1 payload.food_id with
      | .error e => .error e
      | .ok query_res => .ok (t1, query_res)

/-- Embedding of `RepositoryWriter::delete` for `FoodsRepository`
(src/foods.rs:193-196). -/
def delete (t : FoodTable) (id : String) : Except FoodsError FoodTable :=
  execute_delete_query t id

/-- Embedding of `RepositoryAllReader::read_all` for `FoodsRepository`
(src/foods.rs:209-218). -/
def read_all (t : FoodTable) (id : String) : Except FoodsError AllFoods :=
  match execute_query_all t id with
  | .error e => .error e
  | .ok foods => .ok { foods := foods }

end FoodsRepository

namespace UserRepository

/-- Embedding of `UserRepository::execute_insert_query`
(src/users.rs:139-154): `INSERT INTO user_table (user_id, user_name,
mail, password) VALUES (?, ?, ?, ?)`; duplicate primary key is an
execution error mapped to `NotFound`. -/
def execute_insert_query (t : UserTable) (payload : User) :
    Except UserError UserTable :=
  if t.any (fun r => r.user_id == payload.user_id) then
    .error .NotFound
  else
    .ok (t ++ [payload])

/-- Embedding of `UserRepository::execute_query` (src/users.rs:156-170):
`SELECT user_id, user_name FROM user_table WHERE user_id = ?` with
`fetch_one`, decoded through `FromRow for PubUserInfo` — only the
`user_id` and `user_name` columns are selected and returned. -/
def execute_query (t : UserTable) (id : String) :
    Except UserError PubUserInfo :=
  match t.find? (fun r => r.user_id == id) with
  | some u => .ok { user_id := u.user_id, user_name := u.user_name }
  | none => .error .NotFound

/-- Embedding of `UserRepository::execute_update_query`
(src/users.rs:172-191): `UPDATE user_table SET user_name = ?, mail = ?,
password = ? WHERE user_id = ?`, keyed by `payload.user_id`; `execute`
succeeds even when zero rows match. -/
def execute_update_query (t : UserTable) (payload : User) :
    Except UserError UserTable :=
  .ok (t.map (fun r =>
    if r.user_id == payload.user_id then
      { r with user_name := payload.user_name
               mail := payload.mail
               password := payload.password }
    else r))

/-- Embedding of `UserRepository::execute_delete_query`
(src/users.rs:193-205): `DELETE FROM user_table WHERE user_id = ?`;
`execute` succeeds even when zero rows match. -/
def execute_delete_query (t : UserTable) (id : String) :
    Except UserError UserTable :=
  .ok (t.filter (fun r => !(r.user_id == id)))

/-- Embedding of `RepositoryTargetReader::read` for `UserRepository`
(src/users.rs:208-216). -/
def read (t : UserTable) (id : String) : Except UserError PubUserInfo :=
  execute_query t id

/-- Embedding of `RepositoryWriter::insert` for `UserRepository`
(src/users.rs:223-227): insert, then a follow-up `read` keyed by
`payload.user_id` returning the `PubUserInfo` projection. -/
def insert (t : UserTable) (payload : User) :
    Except UserError (UserTable × PubUserInfo) :=
  match execute_insert_query t payload with
  | .error e => .error e
  | .ok t1 =>
      match read t1 payload.user_id with
      | .error e => .error e
      | .ok query_res => .ok (t1, query_res)

/-- Embedding of `RepositoryWriter::update` for `UserRepository`
(src/users.rs:229-233): the `_id` parameter is ignored by the source;
update and follow-up read are keyed by `payload.user_id`. -/
def update (t : UserTable) (_id : String) (payload : User) :
    Except UserError (UserTable × PubUserInfo) :=
  match execute_update_query t payload with
  | .error e => .error e
  | .ok t1 =>
      match read t1 payload.user_id with
      | .error e => .error e
      | .ok query_res => .ok (t1, query_res)

/-- Embedding of `RepositoryWriter::delete` for `UserRepository`
(src/users.rs:234-236). -/
def delete (t : UserTable) (id : String) : Except UserError UserTable :=
  execute_delete_query t id

end UserRepository

/-- Modelled from the spec: the PHC string produced by the external
`argon2`/`password_hash` crates in `default_hash_password`
(src/util.rs:20-28).  The crates are not code of this repository; the
spec (§4.2) describes their contract: the output is one self-describing
string encoding the algorithm parameters, the salt, and the digest
obtained by running the key-derivation function on salt + plaintext.
The encoded string is embedded as this record, with the (fixed)
algorithm parameters implicit; two encoded strings are equal exactly
when their salt and digest components are. -/
structure PHCString where
  salt : String
  digest : String
deriving DecidableEq, Repr

/-- Modelled from the spec: `Argon2::default().hash_password` of the
external `argon2` crate, abstracted over the key-derivation function
`kdf` that combines salt and plaintext into a digest.  The produced
PHC string records the salt used and the digest `kdf salt password`. -/
def hash_password (kdf : String → String → String) (salt password : String) :
    PHCString :=
  { salt := salt, digest := kdf salt password }

/-- Embedding of `default_hash_password` (src/util.rs:20-28): the salt
string materialized from `gen_uniq_b64_string()` (an external UUID
source) is passed in explicitly as `salt`; the two external fallible
steps are represented by `saltOk` (salt materialization, error
`HashError::Salt`) and `hashOk` (the KDF step, error
`HashError::Hash`). -/
def default_hash_password (kdf : String → String → String)
    (salt : String) (saltOk hashOk : Bool) (_password : String) :
    Except HashError PHCString :=
  if !saltOk then .error .Salt
  else if !hashOk then .error .Hash
  else .ok (hash_password kdf salt _password)

/-- Embedding of `verify_pass` (src/util.rs:42-47): parse the stored
PHC string (parsing a well-formed `PHCString` value always succeeds)
and re-derive the digest from the stored salt and the supplied
plaintext, comparing with the stored digest; mismatch is reported as
`HashError::Hash`, exactly as the source maps the verifier's error. -/
def verify_pass (kdf : String → String → String)
    (password : String) (password_hash : PHCString) :
    Except HashError Unit :=
  if kdf password_hash.salt password == password_hash.digest then .ok ()
  else .error .Hash

/-! ## Helper lemmas -/

/-- The row transformer of the food `UPDATE` statement leaves the
`food_id` key column (and hence the `WHERE` predicate) unchanged. -/
lemma food_update_row_comp (p : Food) :
    ((fun r : Food => r.food_id == p.food_id) ∘
      (fun r : Food =>
        if r.food_id == p.food_id then
          { r with food_name := p.food_name, exp := p.exp }
        else r))
    = fun r : Food => r.food_id == p.food_id := by
  funext r
  by_cases h : r.food_id == p.food_id <;> simp [Function.comp, h]

/-- The row transformer of the user `UPDATE` statement leaves the
`user_id` key column unchanged. -/
lemma user_update_row_comp (p : User) :
    ((fun r : User => r.user_id == p.user_id) ∘
      (fun r : User =>
        if r.user_id == p.user_id then
          { r with user_name := p.user_name, mail := p.mail,
                   password := p.password }
        else r))
    = fun r : User => r.user_id == p.user_id := by
  funext r
  by_cases h : r.user_id == p.user_id <;> simp [Function.comp, h]

/-- Looking up a key in the food table after the `UPDATE` map is the
lookup in the old table followed by the row transformer. -/
lemma find?_food_update (t : FoodTable) (p : Food) :
    (t.map (fun r =>
        if r.food_id == p.food_id then
          { r with food_name := p.food_name, exp := p.exp }
        else r)).find? (fun r => r.food_id == p.food_id)
    = (t.find? (fun r => r.food_id == p.food_id)).map (fun r =>
        if r.food_id == p.food_id then
          { r with food_name := p.food_name, exp := p.exp }
        else r) := by
  rw [List.find?_map, food_update_row_comp]

/-- Looking up a key in the user table after the `UPDATE` map is the
lookup in the old table followed by the row transformer. -/
lemma find?_user_update (t : UserTable) (p : User) :
    (t.map (fun r =>
        if r.user_id == p.user_id then
          { r with user_name := p.user_name, mail := p.mail,
                   password := p.password }
        else r)).find? (fun r => r.user_id == p.user_id)
    = (t.find? (fun r => r.user_id == p.user_id)).map (fun r =>
        if r.user_id == p.user_id then
          { r with user_name := p.user_name, mail := p.mail,
                   password := p.password }
        else r) := by
  rw [List.find?_map, user_update_row_comp]

/-- Inversion for a successful food `insert`: the raw insert succeeded
and the follow-up read keyed by the payload's id produced the output. -/
lemma foods_insert_ok (t : FoodTable) (p : Food) (t' : FoodTable)
    (out : Food) (h : FoodsRepository.insert t p = .ok (t', out)) :
    FoodsRepository.execute_insert_query t p = .ok t'
    ∧ FoodsRepository.read t' p.food_id = .ok out := by
  simp only [FoodsRepository.insert] at h
  cases h1 : FoodsRepository.execute_insert_query t p with
  | error e => simp only [h1] at h; exact Except.noConfusion h
  | ok t1 =>
    simp only [h1] at h
    cases h2 : FoodsRepository.read t1 p.food_id with
    | error e => simp only [h2] at h; exact Except.noConfusion h
    | ok res =>
      simp only [h2, Except.ok.injEq, Prod.mk.injEq] at h
      obtain ⟨ht, ho⟩ := h
      subst ht; subst ho
      exact ⟨rfl, h2⟩

/-- Inversion for a successful food `update`. -/
lemma foods_update_ok (t : FoodTable) (i : String) (p : Food)
    (t' : FoodTable) (out : Food)
    (h : FoodsRepository.update t i p = .ok (t', out)) :
    FoodsRepository.execute_update_query t p = .ok t'
    ∧ FoodsRepository.read t' p.food_id = .ok out := by
  simp only [FoodsRepository.update] at h
  cases h1 : FoodsRepository.execute_update_query t p with
  | error e => simp only [h1] at h; exact Except.noConfusion h
  | ok t1 =>
    simp only [h1] at h
    cases h2 : FoodsRepository.read t1 p.food_id with
    | error e => simp only [h2] at h; exact Except.noConfusion h
    | ok res =>
      simp only [h2, Except.ok.injEq, Prod.mk.injEq] at h
      obtain ⟨ht, ho⟩ := h
      subst ht; subst ho
      exact ⟨rfl, h2⟩

/-- Inversion for a successful user `insert`. -/
lemma users_insert_ok (t : UserTable) (p : User) (t' : UserTable)
    (out : PubUserInfo) (h : UserRepository.insert t p = .ok (t', out)) :
    UserRepository.execute_insert_query t p = .ok t'
    ∧ UserRepository.read t' p.user_id = .ok out := by
  simp only [UserRepository.insert] at h
  cases h1 : UserRepository.execute_insert_query t p with
  | error e => simp only [h1] at h; exact Except.noConfusion h
  | ok t1 =>
    simp only [h1] at h
    cases h2 : UserRepository.read t1 p.user_id with
    | error e => simp only [h2] at h; exact Except.noConfusion h
    | ok res =>
      simp only [h2, Except.ok.injEq, Prod.mk.injEq] at h
      obtain ⟨ht, ho⟩ := h
      subst ht; subst ho
      exact ⟨rfl, h2⟩

/-- Inversion for a successful user `update`. -/
lemma users_update_ok (t : UserTable) (i : String) (p : User)
    (t' : UserTable) (out : PubUserInfo)
    (h : UserRepository.update t i p = .ok (t', out)) :
    UserRepository.execute_update_query t p = .ok t'
    ∧ UserRepository.read t' p.user_id = .ok out := by
  simp only [UserRepository.update] at h
  cases h1 : UserRepository.execute_update_query t p with
  | error e => simp only [h1] at h; exact Except.noConfusion h
  | ok t1 =>
    simp only [h1] at h
    cases h2 : UserRepository.read t1 p.user_id with
    | error e => simp only [h2] at h; exact Except.noConfusion h
    | ok res =>
      simp only [h2, Except.ok.injEq, Prod.mk.injEq] at h
      obtain ⟨ht, ho⟩ := h
      subst ht; subst ho
      exact ⟨rfl, h2⟩

/-- Inversion for a successful raw food insert: the table had no row
with the payload's key and the row was appended. -/
lemma foods_insert_query_ok (t : FoodTable) (p : Food) (t' : FoodTable)
    (h : FoodsRepository.execute_insert_query t p = .ok t') :
    t.any (fun r => r.food_id == p.food_id) = false ∧ t' = t ++ [p] := by
  unfold FoodsRepository.execute_insert_query at h
  by_cases ha : t.any (fun r => r.food_id == p.food_id)
  · simp [ha] at h
  · simp only [ha, Bool.false_eq_true, if_false, Except.ok.injEq] at h
    exact ⟨by simpa using ha, h.symm⟩

/-- Inversion for a successful raw user insert. -/
lemma users_insert_query_ok (t : UserTable) (p : User) (t' : UserTable)
    (h : UserRepository.execute_insert_query t p = .ok t') :
    t.any (fun r => r.user_id == p.user_id) = false ∧ t' = t ++ [p] := by
  unfold UserRepository.execute_insert_query at h
  by_cases ha : t.any (fun r => r.user_id == p.user_id)
  · simp [ha] at h
  · simp only [ha, Bool.false_eq_true, if_false, Except.ok.injEq] at h
    exact ⟨by simpa using ha, h.symm⟩

/-- Reading a freshly appended food row finds exactly that row when no
earlier row carries its key. -/
lemma foods_read_append (t : FoodTable) (p : Food)
    (ha : t.any (fun r => r.food_id == p.food_id) = false) :
    FoodsRepository.read (t ++ [p]) p.food_id = .ok p := by
  have hn : t.find? (fun r => r.food_id == p.food_id) = none := by
    refine List.find?_eq_none.mpr (fun x hx => ?_)
    have := List.any_eq_false.mp ha x hx
    simpa using this
  simp only [FoodsRepository.read, FoodsRepository.execute_query]
  rw [List.find?_append, hn]
  simp [List.find?]

/-- Reading a freshly appended user row finds exactly its public
projection when no earlier row carries its key. -/
lemma users_read_append (t : UserTable) (p : User)
    (ha : t.any (fun r => r.user_id == p.user_id) = false) :
    UserRepository.read (t ++ [p]) p.user_id
      = .ok { user_id := p.user_id, user_name := p.user_name } := by
  have hn : t.find? (fun r => r.user_id == p.user_id) = none := by
    refine List.find?_eq_none.mpr (fun x hx => ?_)
    have := List.any_eq_false.mp ha x hx
    simpa using this
  simp only [UserRepository.read, UserRepository.execute_query]
  rw [List.find?_append, hn]
  simp [List.find?]

/-- Inversion for a successful `User::new`: the hasher accepted the
plaintext and every field comes from the payload (id from the
generator, password from the hasher). -/
lemma user_new_ok (genId : String) (payload : CreateUserPayload)
    (hasher : String → Except HashError String) (u : User)
    (h : User.new genId payload hasher = .ok u) :
    ∃ pw, hasher payload.password = .ok pw
      ∧ u = { user_id := genId, user_name := payload.user_name,
              mail := payload.mail, password := pw } := by
  unfold User.new at h
  cases hh : hasher payload.password with
  | error e => simp only [hh] at h; exact Except.noConfusion h
  | ok pw =>
    simp only [hh, Except.ok.injEq] at h
    exact ⟨pw, rfl, h.symm⟩

/-! ## Claims -/

/-- C1 (counterexample): the claim says a delete applied to an id for
which no row exists is reported as `NotFound` rather than success; on
the empty table, `delete` nevertheless succeeds with `Ok(())` for both
repositories, because sqlx's `execute` does not fail on zero affected
rows and the code never inspects `rows_affected`. -/
theorem c1_counterexample :
    FoodsRepository.delete ([] : FoodTable) "f1" = .ok []
    ∧ FoodsRepository.delete ([] : FoodTable) "f1"
        ≠ .error FoodsError.NotFound
    ∧ UserRepository.delete ([] : UserTable) "u1" = .ok [] := by
  refine ⟨rfl, fun h => ?_, rfl⟩
  exact Except.noConfusion h

/-- C1 (amended): every repository failure is reported as the single
domain variant `NotFound` (the error enums have no other inhabitant),
and an `update` whose payload id matches no row is reported as
`NotFound` — but only because the follow-up read fails; a `delete`
whose id matches no row affects zero rows and is reported as success,
returning the table unchanged. -/
theorem c1_failure_collapse_amended :
    (∀ e : FoodsError, e = FoodsError.NotFound)
    ∧ (∀ e : UserError, e = UserError.NotFound)
    ∧ (∀ (t : FoodTable) (i : String) (p : Food),
        (∀ r ∈ t, r.food_id ≠ p.food_id) →
        FoodsRepository.update t i p = .error .NotFound)
    ∧ (∀ (t : UserTable) (i : String) (p : User),
        (∀ r ∈ t, r.user_id ≠ p.user_id) →
        UserRepository.update t i p = .error .NotFound)
    ∧ (∀ (t : FoodTable) (i : String),
        (∀ r ∈ t, r.food_id ≠ i) →
        FoodsRepository.delete t i = .ok t)
    ∧ (∀ (t : UserTable) (i : String),
        (∀ r ∈ t, r.user_id ≠ i) →
        UserRepository.delete t i = .ok t) := by
  refine ⟨fun e => by cases e; rfl, fun e => by cases e; rfl,
    ?_, ?_, ?_, ?_⟩
  · intro t i p h
    have hf : t.find? (fun r => r.food_id == p.food_id) = none :=
      List.find?_eq_none.mpr (fun r hr => by simpa using h r hr)
    simp only [FoodsRepository.update, FoodsRepository.execute_update_query,
      FoodsRepository.read, FoodsRepository.execute_query]
    rw [find?_food_update, hf]
    rfl
  · intro t i p h
    have hf : t.find? (fun r => r.user_id == p.user_id) = none :=
      List.find?_eq_none.mpr (fun r hr => by simpa using h r hr)
    simp only [UserRepository.update, UserRepository.execute_update_query,
      UserRepository.read, UserRepository.execute_query]
    rw [find?_user_update, hf]
    rfl
  · intro t i h
    have : ∀ r ∈ t, (!(r.food_id == i)) = true :=
      fun r hr => by simpa using h r hr
    simp [FoodsRepository.delete, FoodsRepository.execute_delete_query,
      List.filter_eq_self.mpr this]
  · intro t i h
    have : ∀ r ∈ t, (!(r.user_id == i)) = true :=
      fun r hr => by simpa using h r hr
    simp [UserRepository.delete, UserRepository.execute_delete_query,
      List.filter_eq_self.mpr this]

/-- C1 (witness): the amended theorem at concrete inputs — updating a
missing food id reports `NotFound`, deleting a missing food id
succeeds and leaves the one-row table unchanged. -/
theorem c1_failure_collapse_witness :
    FoodsRepository.update ([] : FoodTable) "f9"
        ⟨"f1", "milk", ⟨2025, 4, 8⟩, "A"⟩ = .error .NotFound
    ∧ FoodsRepository.delete [⟨"f1", "milk", ⟨2025, 4, 8⟩, "A"⟩] "f2"
        = .ok [⟨"f1", "milk", ⟨2025, 4, 8⟩, "A"⟩] :=
  ⟨c1_failure_collapse_amended.2.2.1 [] "f9" _ (by simp),
   c1_failure_collapse_amended.2.2.2.2.1 _ "f2" (by decide)⟩

/-- C5: after `delete(I)` succeeds on either repository, a read of `I`
against the resulting store state fails with `NotFound`. -/
theorem c5_post_delete_invisibility :
    (∀ (t : FoodTable) (i : String) (t' : FoodTable),
        FoodsRepository.delete t i = .ok t' →
        FoodsRepository.read t' i = .error .NotFound)
    ∧ (∀ (t : UserTable) (i : String) (t' : UserTable),
        UserRepository.delete t i = .ok t' →
        UserRepository.read t' i = .error .NotFound) := by
  constructor
  · intro t i t' h
    simp only [FoodsRepository.delete, FoodsRepository.execute_delete_query,
      Except.ok.injEq] at h
    subst h
    have hf : (t.filter (fun r => !(r.food_id == i))).find?
        (fun r => r.food_id == i) = none := by
      refine List.find?_eq_none.mpr (fun x hx => ?_)
      have := (List.mem_filter.mp hx).2
      simp at this
      simp [this]
    simp [FoodsRepository.read, FoodsRepository.execute_query, hf]
  · intro t i t' h
    simp only [UserRepository.delete, UserRepository.execute_delete_query,
      Except.ok.injEq] at h
    subst h
    have hf : (t.filter (fun r => !(r.user_id == i))).find?
        (fun r => r.user_id == i) = none := by
      refine List.find?_eq_none.mpr (fun x hx => ?_)
      have := (List.mem_filter.mp hx).2
      simp at this
      simp [this]
    simp [UserRepository.read, UserRepository.execute_query, hf]

/-- C5 (witness): deleting the only food row, then reading its id,
yields `NotFound`; likewise for a user row. -/
theorem c5_post_delete_witness :
    FoodsRepository.read ([] : FoodTable) "f1" = .error .NotFound
    ∧ UserRepository.read ([] : UserTable) "u1" = .error .NotFound :=
  ⟨c5_post_delete_invisibility.1 [⟨"f1", "milk", ⟨2025, 4, 8⟩, "A"⟩]
      "f1" [] (by rfl),
   c5_post_delete_invisibility.2 [⟨"u1", "alice", "a@x.com", "h"⟩]
      "u1" [] (by rfl)⟩

/-- C3: whenever `insert` or `update` succeeds on either repository,
its output is exactly what the follow-up `read` keyed by the payload's
entity id returns against the post-write store state — the full `Food`
for the food repository, the `PubUserInfo` projection for the user
repository — not the in-memory payload. -/
theorem c3_write_readback :
    (∀ (t : FoodTable) (p : Food) (t' : FoodTable) (out : Food),
        FoodsRepository.insert t p = .ok (t', out) →
        FoodsRepository.read t' p.food_id = .ok out)
    ∧ (∀ (t : FoodTable) (i : String) (p : Food) (t' : FoodTable)
        (out : Food),
        FoodsRepository.update t i p = .ok (t', out) →
        FoodsRepository.read t' p.food_id = .ok out)
    ∧ (∀ (t : UserTable) (p : User) (t' : UserTable) (out : PubUserInfo),
        UserRepository.insert t p = .ok (t', out) →
        UserRepository.read t' p.user_id = .ok out)
    ∧ (∀ (t : UserTable) (i : String) (p : User) (t' : UserTable)
        (out : PubUserInfo),
        UserRepository.update t i p = .ok (t', out) →
        UserRepository.read t' p.user_id = .ok out) :=
  ⟨fun t p t' out h => (foods_insert_ok t p t' out h).2,
   fun t i p t' out h => (foods_update_ok t i p t' out h).2,
   fun t p t' out h => (users_insert_ok t p t' out h).2,
   fun t i p t' out h => (users_update_ok t i p t' out h).2⟩

/-- C3 (witness): inserting a food into the empty table and a user into
the empty table; the outputs read back from the post-write state. -/
theorem c3_write_readback_witness :
    FoodsRepository.read [⟨"f1", "milk", ⟨2025, 4, 8⟩, "A"⟩] "f1"
      = .ok ⟨"f1", "milk", ⟨2025, 4, 8⟩, "A"⟩
    ∧ UserRepository.read [⟨"u1", "alice", "a@x.com", "h1"⟩] "u1"
      = .ok ⟨"u1", "alice"⟩ :=
  ⟨c3_write_readback.1 [] ⟨"f1", "milk", ⟨2025, 4, 8⟩, "A"⟩ _ _ rfl,
   c3_write_readback.2.2.1 [] ⟨"u1", "alice", "a@x.com", "h1"⟩ _ _ rfl⟩

/-- C4: inserting an entity built from a create payload and then
reading the inserted id returns exactly the insert's output; for foods
the output is the full entity, for users the output agrees with the
inserted user on `user_id` and `user_name`, the only fields present in
the redacted `PubUserInfo` (`mail` and `password` are absent from its
type). -/
theorem c4_insert_roundtrip :
    (∀ (genId : String) (payload : CreateFoodPayload) (user : PubUserInfo)
        (t t' : FoodTable) (out : Food),
        FoodsRepository.insert t (Food.new genId payload user)
          = .ok (t', out) →
        out = Food.new genId payload user
        ∧ FoodsRepository.read t' out.food_id = .ok out)
    ∧ (∀ (genId : String) (payload : CreateUserPayload)
        (hasher : String → Except HashError String) (u : User)
        (t t' : UserTable) (out : PubUserInfo),
        User.new genId payload hasher = .ok u →
        UserRepository.insert t u = .ok (t', out) →
        out.user_id = u.user_id ∧ out.user_name = payload.user_name
        ∧ UserRepository.read t' out.user_id = .ok out) := by
  constructor
  · intro genId payload user t t' out h
    obtain ⟨h1, h2⟩ := foods_insert_ok _ _ _ _ h
    obtain ⟨ha, ht⟩ := foods_insert_query_ok _ _ _ h1
    subst ht
    have hr := foods_read_append t (Food.new genId payload user) ha
    rw [hr] at h2
    have ho : out = Food.new genId payload user := by
      injection h2 with h2; exact h2.symm
    subst ho
    exact ⟨rfl, hr⟩
  · intro genId payload hasher u t t' out hn h
    obtain ⟨pw, hpw, hu⟩ := user_new_ok _ _ _ _ hn
    obtain ⟨h1, h2⟩ := users_insert_ok _ _ _ _ h
    obtain ⟨ha, ht⟩ := users_insert_query_ok _ _ _ h1
    subst ht
    have hr := users_read_append t u ha
    rw [hr] at h2
    have ho : out = { user_id := u.user_id, user_name := u.user_name } := by
      injection h2 with h2; exact h2.symm
    subst ho
    refine ⟨rfl, ?_, hr⟩
    rw [hu]

/-- C4 (witness): the round-trip at concrete create payloads, with a
concrete stub hasher for the user. -/
theorem c4_insert_roundtrip_witness :
    Food.new "f1" ⟨"milk", ⟨2025, 4, 8⟩⟩ ⟨"A", "alice"⟩
      = ⟨"f1", "milk", ⟨2025, 4, 8⟩, "A"⟩
    ∧ UserRepository.read [⟨"u1", "alice", "a@x.com", "h:secret"⟩] "u1"
      = .ok ⟨"u1", "alice"⟩ :=
  ⟨((c4_insert_roundtrip.1 "f1" ⟨"milk", ⟨2025, 4, 8⟩⟩ ⟨"A", "alice"⟩
      [] _ _ rfl).1).symm,
   (c4_insert_roundtrip.2 "u1" ⟨"alice", "a@x.com", "secret"⟩
      (fun s => .ok ("h:" ++ s)) ⟨"u1", "alice", "a@x.com", "h:secret"⟩
      [] _ _ rfl rfl).2.2⟩

/-- C6: `read_all(owner)` returns exactly the foods whose `user_id`
equals the owner id, and a food inserted with owner distinct from `b`
never appears in `read_all(b)` on the post-insert state. -/
theorem c6_ownership_scoping :
    (∀ (t : FoodTable) (o : String) (res : AllFoods),
        FoodsRepository.read_all t o = .ok res →
        ∀ f : Food, f ∈ res.foods ↔ (f ∈ t ∧ f.user_id = o))
    ∧ (∀ (t : FoodTable) (p : Food) (t' : FoodTable) (out : Food)
        (b : String),
        FoodsRepository.insert t p = .ok (t', out) →
        p.user_id ≠ b →
        ∀ res : AllFoods, FoodsRepository.read_all t' b = .ok res →
          p ∉ res.foods) := by
  have hall : ∀ (t : FoodTable) (o : String) (res : AllFoods),
      FoodsRepository.read_all t o = .ok res →
      ∀ f : Food, f ∈ res.foods ↔ (f ∈ t ∧ f.user_id = o) := by
    intro t o res h f
    simp only [FoodsRepository.read_all, FoodsRepository.execute_query_all,
      Except.ok.injEq] at h
    subst h
    simp [List.mem_filter]
  refine ⟨hall, ?_⟩
  intro t p t' out b _hins hne res hall'
  intro hmem
  exact hne ((hall t' b res hall' p).mp hmem).2

/-- C6 (witness): with one food owned by "A" and one owned by "B",
`read_all "A"` contains the "A" food; after inserting an "A" food into
the empty table it does not appear in `read_all "B"`. -/
theorem c6_ownership_scoping_witness :
    ((⟨"f1", "milk", ⟨2025, 4, 8⟩, "A"⟩ : Food)
        ∈ [(⟨"f1", "milk", ⟨2025, 4, 8⟩, "A"⟩ : Food)]
      ↔ ((⟨"f1", "milk", ⟨2025, 4, 8⟩, "A"⟩ : Food)
          ∈ [(⟨"f1", "milk", ⟨2025, 4, 8⟩, "A"⟩ : Food),
             (⟨"f2", "eggs", ⟨2025, 6, 1⟩, "B"⟩ : Food)]
        ∧ ("A" : String) = "A"))
    ∧ (⟨"f1", "milk", ⟨2025, 4, 8⟩, "A"⟩ : Food)
        ∉ (AllFoods.mk []).foods :=
  ⟨c6_ownership_scoping.1
      [⟨"f1", "milk", ⟨2025, 4, 8⟩, "A"⟩, ⟨"f2", "eggs", ⟨2025, 6, 1⟩, "B"⟩]
      "A" ⟨[⟨"f1", "milk", ⟨2025, 4, 8⟩, "A"⟩]⟩ rfl _,
   c6_ownership_scoping.2 [] ⟨"f1", "milk", ⟨2025, 4, 8⟩, "A"⟩ _ _ "B"
      rfl (by decide) ⟨[]⟩ rfl⟩

/-- C2 (counterexample): the food `UPDATE` statement sets only
`food_name` and `exp`, so after a successful `update("f1", P')` whose
payload carries `user_id = "B"`, the read-back row keeps the stored
`user_id = "A"` and is not equal to P' on every field; moreover the id
argument is ignored (`_id` in the source): `update("f9", P')` with no
row `"f9"` still succeeds and modifies the row keyed by the payload's
`food_id = "f1"`. -/
theorem c2_counterexample :
    FoodsRepository.update [⟨"f1", "milk", ⟨2025, 4, 8⟩, "A"⟩] "f1"
        ⟨"f1", "bread", ⟨2025, 5, 1⟩, "B"⟩
      = .ok ([⟨"f1", "bread", ⟨2025, 5, 1⟩, "A"⟩],
             ⟨"f1", "bread", ⟨2025, 5, 1⟩, "A"⟩)
    ∧ (⟨"f1", "bread", ⟨2025, 5, 1⟩, "A"⟩ : Food)
        ≠ ⟨"f1", "bread", ⟨2025, 5, 1⟩, "B"⟩
    ∧ FoodsRepository.update [⟨"f1", "milk", ⟨2025, 4, 8⟩, "A"⟩] "f9"
        ⟨"f1", "bread", ⟨2025, 5, 1⟩, "B"⟩
      = .ok ([⟨"f1", "bread", ⟨2025, 5, 1⟩, "A"⟩],
             ⟨"f1", "bread", ⟨2025, 5, 1⟩, "A"⟩) :=
  ⟨rfl, by decide, rfl⟩

/-- C2 (amended): a successful `update(I, P')` is keyed by the
payload's own id (the `I` argument is ignored); the read-back row has
the payload's id, and for foods the payload's `food_name` and `exp`
but the previously stored row's `user_id`; for users all fields of the
returned projection (`user_id`, `user_name`) come from the payload.
The follow-up read of the payload's id returns exactly the update's
output. -/
theorem c2_update_visibility_amended :
    (∀ (t : FoodTable) (i : String) (p : Food) (t' : FoodTable)
        (out : Food),
        FoodsRepository.update t i p = .ok (t', out) →
        out.food_id = p.food_id
        ∧ out.food_name = p.food_name
        ∧ out.exp = p.exp
        ∧ (∃ r, t.find? (fun r => r.food_id == p.food_id) = some r
            ∧ out.user_id = r.user_id)
        ∧ FoodsRepository.read t' p.food_id = .ok out)
    ∧ (∀ (t : UserTable) (i : String) (p : User) (t' : UserTable)
        (out : PubUserInfo),
        UserRepository.update t i p = .ok (t', out) →
        out.user_id = p.user_id
        ∧ out.user_name = p.user_name
        ∧ UserRepository.read t' p.user_id = .ok out) := by
  constructor
  · intro t i p t' out h
    obtain ⟨h1, h2⟩ := foods_update_ok t i p t' out h
    simp only [FoodsRepository.execute_update_query, Except.ok.injEq] at h1
    have h2' := h2
    rw [← h1] at h2'
    simp only [FoodsRepository.read, FoodsRepository.execute_query] at h2'
    rw [find?_food_update] at h2'
    cases hf : t.find? (fun r => r.food_id == p.food_id) with
    | none => rw [hf] at h2'; exact Except.noConfusion h2'
    | some r =>
      rw [hf] at h2'
      simp only [Option.map_some', Except.ok.injEq] at h2'
      have hr : r.food_id = p.food_id := by simpa using List.find?_some hf
      rw [if_pos (show (r.food_id == p.food_id) = true by simpa using hr)]
        at h2'
      subst h2'
      exact ⟨hr, rfl, rfl, ⟨r, rfl, rfl⟩, h2⟩
  · intro t i p t' out h
    obtain ⟨h1, h2⟩ := users_update_ok t i p t' out h
    simp only [UserRepository.execute_update_query, Except.ok.injEq] at h1
    have h2' := h2
    rw [← h1] at h2'
    simp only [UserRepository.read, UserRepository.execute_query] at h2'
    rw [find?_user_update] at h2'
    cases hf : t.find? (fun r => r.user_id == p.user_id) with
    | none => rw [hf] at h2'; exact Except.noConfusion h2'
    | some r =>
      rw [hf] at h2'
      simp only [Option.map_some', Except.ok.injEq] at h2'
      have hr : r.user_id = p.user_id := by simpa using List.find?_some hf
      rw [if_pos (show (r.user_id == p.user_id) = true by simpa using hr)]
        at h2'
      subst h2'
      exact ⟨hr, rfl, h2⟩

/-- C2 (witness): the amended theorem at a concrete one-row table for
each repository, projecting the read-back conjunct. -/
theorem c2_update_visibility_witness :
    FoodsRepository.read [⟨"f1", "bread", ⟨2025, 5, 1⟩, "A"⟩] "f1"
      = .ok ⟨"f1", "bread", ⟨2025, 5, 1⟩, "A"⟩
    ∧ UserRepository.read [⟨"u1", "bob", "b@y.org", "h2"⟩] "u1"
      = .ok ⟨"u1", "bob"⟩ :=
  ⟨(c2_update_visibility_amended.1 [⟨"f1", "milk", ⟨2025, 4, 8⟩, "A"⟩]
      "f1" ⟨"f1", "bread", ⟨2025, 5, 1⟩, "B"⟩ _ _ rfl).2.2.2.2,
   (c2_update_visibility_amended.2 [⟨"u1", "alice", "a@x.com", "h1"⟩]
      "u1" ⟨"u1", "bob", "b@y.org", "h2"⟩ _ _ rfl).2.2⟩

/-- Reading the user table produces the same result on any two table
states that agree row-by-row on `user_id` and `user_name`, whatever
their `mail` and `password` columns hold. -/
lemma users_read_pub_congr (t1 t2 : UserTable)
    (h : List.Forall₂ (fun u v : User =>
      u.user_id = v.user_id ∧ u.user_name = v.user_name) t1 t2) :
    ∀ i, UserRepository.read t1 i = UserRepository.read t2 i := by
  induction h with
  | nil => intro i; rfl
  | @cons a b l1 l2 hab hrest ih =>
    intro i
    obtain ⟨hid, hname⟩ := hab
    by_cases hpa : (a.user_id == i) = true
    · have hpb : (b.user_id == i) = true := by rw [← hid]; exact hpa
      have e1 : (a :: l1).find? (fun r => r.user_id == i) = some a := by
        simp [List.find?, hpa]
      have e2 : (b :: l2).find? (fun r => r.user_id == i) = some b := by
        simp [List.find?, hpb]
      simp only [UserRepository.read, UserRepository.execute_query,
        e1, e2, hid, hname]
    · have hpa' : (a.user_id == i) = false := by simpa using hpa
      have hpb' : (b.user_id == i) = false := by rw [← hid]; exact hpa'
      have e1 : (a :: l1).find? (fun r => r.user_id == i)
          = l1.find? (fun r => r.user_id == i) := by
        simp [List.find?, hpa']
      have e2 : (b :: l2).find? (fun r => r.user_id == i)
          = l2.find? (fun r => r.user_id == i) := by
        simp [List.find?, hpb']
      simp only [UserRepository.read, UserRepository.execute_query, e1, e2]
      have := ih i
      simp only [UserRepository.read, UserRepository.execute_query] at this
      exact this

/-- C7: every successful user read returns the `PubUserInfo`
projection — only `user_id` and `user_name` of some stored row, never
`mail` or `password` — and, equivalently, reading two store states
that agree on `user_id`/`user_name` row-by-row (differing arbitrarily
in `mail` and `password`) yields identical results. -/
theorem c7_pub_user_redaction :
    (∀ (t : UserTable) (i : String) (p : PubUserInfo),
        UserRepository.read t i = .ok p →
        ∃ u, u ∈ t ∧ u.user_id = i
          ∧ p = { user_id := u.user_id, user_name := u.user_name })
    ∧ (∀ t1 t2 : UserTable,
        List.Forall₂ (fun u v : User =>
          u.user_id = v.user_id ∧ u.user_name = v.user_name) t1 t2 →
        ∀ i, UserRepository.read t1 i = UserRepository.read t2 i) := by
  refine ⟨?_, users_read_pub_congr⟩
  intro t i p h
  simp only [UserRepository.read, UserRepository.execute_query] at h
  cases hf : t.find? (fun r => r.user_id == i) with
  | none => rw [hf] at h; exact Except.noConfusion h
  | some u =>
    rw [hf] at h
    simp only [Except.ok.injEq] at h
    exact ⟨u, List.mem_of_find?_eq_some hf,
      by simpa using List.find?_some hf, h.symm⟩

/-- C7 (witness): two one-row user tables sharing `user_id` and
`user_name` but with different mail and password columns are
indistinguishable through `read`. -/
theorem c7_pub_user_redaction_witness :
    UserRepository.read [⟨"u1", "alice", "a@x.com", "hash1"⟩] "u1"
      = UserRepository.read [⟨"u1", "alice", "b@y.org", "hash2"⟩] "u1" :=
  c7_pub_user_redaction.2 _ _
    (List.Forall₂.cons ⟨rfl, rfl⟩ List.Forall₂.nil) "u1"

/-- C8: when the injected hasher fails, `User::new` returns exactly
that error and no user value; when it succeeds, the stored `password`
field is exactly the hasher's output for the payload's password — so
it is not the caller's plaintext unless the hasher itself returned the
plaintext, and not empty unless the hasher returned the empty
string. -/
theorem c8_hash_error_propagation :
    ∀ (genId : String) (payload : CreateUserPayload)
      (hasher : String → Except HashError String),
      (∀ e : HashError, hasher payload.password = .error e →
        User.new genId payload hasher = .error e)
      ∧ (∀ u : User, User.new genId payload hasher = .ok u →
          hasher payload.password = .ok u.password
          ∧ (hasher payload.password ≠ .ok payload.password →
              u.password ≠ payload.password)
          ∧ (hasher payload.password ≠ .ok "" → u.password ≠ "")) := by
  intro genId payload hasher
  constructor
  · intro e he
    unfold User.new
    rw [he]
  · intro u hu
    obtain ⟨pw, hpw, hupw⟩ := user_new_ok _ _ _ _ hu
    have hup : u.password = pw := by rw [hupw]
    refine ⟨by rw [hup]; exact hpw, ?_, ?_⟩
    · intro hne heq
      exact hne (by rw [hpw]; exact congrArg Except.ok (hup.symm.trans heq))
    · intro hne heq
      exact hne (by rw [hpw]; exact congrArg Except.ok (hup.symm.trans heq))

/-- C8 (witness): a hasher that fails with `Salt` propagates that
error out of `User::new`; a concrete stub hasher's output is exactly
the password stored for the created user. -/
theorem c8_hash_error_propagation_witness :
    User.new "id1" ⟨"alice", "a@x.com", "secret"⟩
        (fun _ => .error .Salt) = .error .Salt
    ∧ (fun s => (.ok ("h:" ++ s) : Except HashError String)) "secret"
        = .ok (User.mk "id1" "alice" "a@x.com" "h:secret").password :=
  ⟨(c8_hash_error_propagation "id1" ⟨"alice", "a@x.com", "secret"⟩
      (fun _ => .error .Salt)).1 .Salt rfl,
   ((c8_hash_error_propagation "id1" ⟨"alice", "a@x.com", "secret"⟩
      (fun s => .ok ("h:" ++ s))).2
      (User.mk "id1" "alice" "a@x.com" "h:secret") rfl).1⟩

/-- C9: two hashing calls over the same plaintext that materialize
distinct salts produce distinct stored PHC-encoded hashes, and
`verify_pass` accepts the plaintext against each of them, for any
key-derivation function. -/
theorem c9_salt_nondeterminism :
    ∀ (kdf : String → String → String) (password s1 s2 : String)
      (h1 h2 : PHCString),
      default_hash_password kdf s1 true true password = .ok h1 →
      default_hash_password kdf s2 true true password = .ok h2 →
      s1 ≠ s2 →
      h1 ≠ h2
      ∧ verify_pass kdf password h1 = .ok ()
      ∧ verify_pass kdf password h2 = .ok () := by
  intro kdf pw s1 s2 h1 h2 e1 e2 hne
  simp only [default_hash_password, Bool.not_true, Bool.false_eq_true,
    if_false, Except.ok.injEq] at e1 e2
  subst e1; subst e2
  refine ⟨?_, ?_, ?_⟩
  · intro hcontra
    exact hne (by simpa [hash_password] using congrArg PHCString.salt hcontra)
  · simp [verify_pass, hash_password]
  · simp [verify_pass, hash_password]

/-- C9 (witness): a concrete key-derivation function and two distinct
salts — the stored hashes differ and both verify. -/
theorem c9_salt_nondeterminism_witness :
    hash_password (fun s p => s ++ "|" ++ p) "saltA" "pw"
      ≠ hash_password (fun s p => s ++ "|" ++ p) "saltB" "pw"
    ∧ verify_pass (fun s p => s ++ "|" ++ p) "pw"
        (hash_password (fun s p => s ++ "|" ++ p) "saltA" "pw") = .ok ()
    ∧ verify_pass (fun s p => s ++ "|" ++ p) "pw"
        (hash_password (fun s p => s ++ "|" ++ p) "saltB" "pw") = .ok () :=
  c9_salt_nondeterminism (fun s p => s ++ "|" ++ p) "pw" "saltA" "saltB"
    _ _ rfl rfl (by decide)

/-- C10: a successful food `update` leaves the table's length intact,
leaves every row whose `food_id` differs from the payload's unchanged
in place, and rewrites each row carrying the payload's `food_id` to
the payload's `food_name` and `exp` while keeping that row's `food_id`
and `user_id`; a successful food `delete` only removes rows (a sublist
of the old table): every surviving row is an old row whose id differs
from the deleted id, and every old row with a different id survives. -/
theorem c10_write_frame :
    (∀ (t : FoodTable) (i : String) (p : Food) (t' : FoodTable)
        (out : Food),
        FoodsRepository.update t i p = .ok (t', out) →
        t'.length = t.length
        ∧ (∀ (k : Nat) (r : Food), t[k]? = some r →
            r.food_id ≠ p.food_id → t'[k]? = some r)
        ∧ (∀ (k : Nat) (r : Food), t[k]? = some r →
            r.food_id = p.food_id →
            t'[k]? = some ⟨r.food_id, p.food_name, p.exp, r.user_id⟩))
    ∧ (∀ (t : FoodTable) (i : String) (t' : FoodTable),
        FoodsRepository.delete t i = .ok t' →
        t'.Sublist t
        ∧ (∀ r ∈ t, r.food_id ≠ i → r ∈ t')
        ∧ (∀ r ∈ t', r ∈ t ∧ r.food_id ≠ i)) := by
  constructor
  · intro t i p t' out h
    obtain ⟨h1, _⟩ := foods_update_ok t i p t' out h
    simp only [FoodsRepository.execute_update_query, Except.ok.injEq] at h1
    subst h1
    refine ⟨List.length_map _ _, ?_, ?_⟩
    · intro k r hk hne
      rw [List.getElem?_map, hk]
      simp [Option.map_some', hne]
    · intro k r hk heq
      rw [List.getElem?_map, hk]
      simp [Option.map_some', heq]
  · intro t i t' h
    simp only [FoodsRepository.delete, FoodsRepository.execute_delete_query,
      Except.ok.injEq] at h
    subst h
    refine ⟨List.filter_sublist _, ?_, ?_⟩
    · intro r hr hne
      refine List.mem_filter.mpr ⟨hr, ?_⟩
      simp [hne]
    · intro r hr
      obtain ⟨h1, h2⟩ := List.mem_filter.mp hr
      refine ⟨h1, ?_⟩
      simpa using h2

/-- C10 (witness): updating food "f1" in a two-row table leaves the
"f2" row in place at its index; deleting "f1" keeps the "f2" row. -/
theorem c10_write_frame_witness :
    ([⟨"f1", "bread", ⟨2025, 5, 1⟩, "A"⟩,
      ⟨"f2", "eggs", ⟨2025, 6, 1⟩, "B"⟩] : FoodTable)[1]?
      = some ⟨"f2", "eggs", ⟨2025, 6, 1⟩, "B"⟩
    ∧ (⟨"f2", "eggs", ⟨2025, 6, 1⟩, "B"⟩ : Food)
        ∈ ([⟨"f2", "eggs", ⟨2025, 6, 1⟩, "B"⟩] : FoodTable) :=
  ⟨(c10_write_frame.1
      [⟨"f1", "milk", ⟨2025, 4, 8⟩, "A"⟩, ⟨"f2", "eggs", ⟨2025, 6, 1⟩, "B"⟩]
      "f1" ⟨"f1", "bread", ⟨2025, 5, 1⟩, "B"⟩ _ _ rfl).2.1 1
      ⟨"f2", "eggs", ⟨2025, 6, 1⟩, "B"⟩ rfl (by decide),
   (c10_write_frame.2
      [⟨"f1", "milk", ⟨2025, 4, 8⟩, "A"⟩, ⟨"f2", "eggs", ⟨2025, 6, 1⟩, "B"⟩]
      "f1" _ rfl).2.1 ⟨"f2", "eggs", ⟨2025, 6, 1⟩, "B"⟩ (by decide)
      (by decide)⟩

end FridgeManage
